import Mathlib

/-!
Verification of the ComPlexionist core against its specification.

The definitions below are a shallow embedding of the Python sources:

* `src/complexionist/cache.py`   — the file-based TTL cache (`Cache`);
* `src/complexionist/gaps/models.py` — the gap-report data model;
* `src/complexionist/eta.py`     — the ETA estimator (`ETACalculator`).

Modelling conventions:

* JSON documents are the inductive type `Json`; a cache file on disk is a
  `JFile` (either a parsed JSON document or unparseable content, matching
  the `json.JSONDecodeError` branch of `Cache.get`).
* The filesystem is a map from path strings to optional file contents;
  `Path.unlink` / writes become pointwise function updates.
* Wall-clock instants handled by the cache are integers (seconds);
  `timedelta(hours=h)` is `3600 * h`.  `datetime.isoformat` /
  `datetime.fromisoformat` are modelled by the injective encoding
  `isoOfTime` and its partial inverse `timeOfIso`: the round-trip law
  `timeOfIso (isoOfTime t) = some t` is exactly the property of the real
  codec the code relies on, and an ISO string is always non-empty.
* Uncaught Python exceptions (`AttributeError` from `.get` on a non-dict,
  `TypeError` from `fromisoformat` on a non-string, `OSError` escaping
  `Cache.set`) are `Except.error` values of type `PyErr`.
* `Cache.set` takes a `WriteOutcome` parameter standing for the
  environment's choice of filesystem failure: none, an `OSError` raised
  while writing the temporary file (which then holds partial content), or
  an `OSError` raised by the final rename.
* Python `float` values in the ETA estimator are rationals; Python's
  built-in `round` (round half to even) is `pyround`.
-/

/-- JSON values, as produced by `json.load` in `cache.py`. -/
inductive Json where
  | null : Json
  | bool : Bool → Json
  | num : ℤ → Json
  | str : String → Json
  | arr : List Json → Json
  | obj : List (String × Json) → Json

/-- Lookup in a JSON object's field list (Python `dict.get`, first match). -/
def lookupField : List (String × Json) → String → Option Json
  | [], _ => none
  | (k, v) :: rest, field => if k = field then some v else lookupField rest field

/-- Python `dict.get` on a JSON value known to be an object; other shapes
have no fields (callers that would raise `AttributeError` are modelled
explicitly at the call site). -/
def Json.lookup : Json → String → Option Json
  | .obj fields, field => lookupField fields field
  | _, _ => none

/-- Python truthiness of a JSON value (`if expires_at_str:` in `Cache.get`). -/
def Json.truthy : Json → Bool
  | .null => false
  | .bool b => b
  | .num n => n != 0
  | .str s => !s.data.isEmpty
  | .arr l => !l.isEmpty
  | .obj l => !l.isEmpty

/-- Contents of one on-disk cache file: either a parseable JSON document or
content on which `json.load` raises `JSONDecodeError`. -/
inductive JFile where
  | corrupt : JFile
  | val : Json → JFile

/-- Uncaught Python exceptions reachable from the embedded cache code. -/
inductive PyErr where
  | attributeError : PyErr
  | typeError : PyErr
  | osError : PyErr
  deriving DecidableEq

/-- The filesystem visible to the cache: path → optional file contents. -/
def FS : Type := String → Option JFile

/-- Create or overwrite a file (`open(..., "w")` + write, or the target of
a rename). -/
def setF (σ : FS) (p : String) (v : JFile) : FS :=
  fun q => if q = p then some v else σ q

/-- Remove a file (`Path.unlink(missing_ok=True)`). -/
def eraseF (σ : FS) (p : String) : FS :=
  fun q => if q = p then none else σ q

/-- The filesystem with no cache files. -/
def emptyFS : FS := fun _ => none

/-- Encoding of a signed time instant as a natural number. -/
def intCode (t : ℤ) : ℕ :=
  if 0 ≤ t then 2 * t.toNat else 2 * (-t).toNat - 1

/-- Decoding of `intCode`. -/
def intDecode (n : ℕ) : ℤ :=
  if n % 2 = 0 then ((n / 2 : ℕ) : ℤ) else -(((n + 1) / 2 : ℕ) : ℤ)

theorem intDecode_intCode (t : ℤ) : intDecode (intCode t) = t := by
  unfold intCode intDecode
  rcases le_or_lt 0 t with h | h
  · rw [if_pos h]
    omega
  · rw [if_neg (not_le.mpr h)]
    omega

/-- Abstract model of `datetime.isoformat()`: an injective rendering of a
time instant as a non-empty string. -/
def isoOfTime (t : ℤ) : String :=
  String.mk (List.replicate (intCode t) 'i' ++ ['Z'])

/-- Abstract model of `datetime.fromisoformat()`: the partial inverse of
`isoOfTime` (`none` models a `ValueError`). -/
def timeOfIso (s : String) : Option ℤ :=
  if s.data.isEmpty then none else some (intDecode (s.data.length - 1))

theorem isoOfTime_data (t : ℤ) :
    (isoOfTime t).data = List.replicate (intCode t) 'i' ++ ['Z'] := rfl

theorem isoOfTime_truthy (t : ℤ) : (Json.str (isoOfTime t)).truthy = true := by
  simp [Json.truthy, isoOfTime_data]

theorem timeOfIso_isoOfTime (t : ℤ) : timeOfIso (isoOfTime t) = some t := by
  simp [timeOfIso, isoOfTime_data, intDecode_intCode]

/-- The cache object (`Cache.__init__`): an enabled flag and a root
directory.  The on-disk store is passed explicitly to each operation. -/
structure Cache where
  enabled : Bool
  cache_dir : String

/-- Path of a cache entry (`Cache._get_path`):
`cache_dir / namespace / category / key ++ ".json"`. -/
def Cache.getPath (c : Cache) (ns cat key : String) : String :=
  c.cache_dir ++ "/" ++ ns ++ "/" ++ cat ++ "/" ++ key ++ ".json"

/-- Path of the temporary write artifact (`path.with_suffix(".tmp")`). -/
def Cache.tmpPath (c : Cache) (ns cat key : String) : String :=
  c.cache_dir ++ "/" ++ ns ++ "/" ++ cat ++ "/" ++ key ++ ".tmp"

theorem getPath_ne_tmpPath (c : Cache) (ns cat key : String) :
    c.getPath ns cat key ≠ c.tmpPath ns cat key := by
  intro h
  have h' := congrArg String.length h
  simp only [Cache.getPath, Cache.tmpPath, String.length_append] at h'
  have h5 : ".json".length = 5 := by decide
  have h4 : ".tmp".length = 4 := by decide
  omega

/-- Embedding of `Cache.get`.  `now` is `datetime.now(UTC)`.  Returns the
result of the call (payload, absent, or an uncaught exception) together
with the filesystem after the call's side effects. -/
def Cache.get (c : Cache) (σ : FS) (now : ℤ) (ns cat key : String) :
    Except PyErr (Option Json) × FS :=
  if c.enabled = false then (.ok none, σ)
  else
    let path := c.getPath ns cat key
    match σ path with
    | none => (.ok none, σ)
    | some .corrupt => (.ok none, eraseF σ path)
    | some (.val entry) =>
      match entry with
      | .obj _ =>
        match (entry.lookup "_cache_meta").getD (.obj []) with
        | .obj metaFields =>
          match lookupField metaFields "expires_at" with
          | some v =>
            if v.truthy then
              match v with
              | .str es =>
                match timeOfIso es with
                | some expiresAt =>
                  if expiresAt < now then (.ok none, eraseF σ path)
                  else (.ok (entry.lookup "data"), σ)
                | none => (.ok none, eraseF σ path)
              | _ => (.error .typeError, σ)
            else (.ok (entry.lookup "data"), σ)
          | none => (.ok (entry.lookup "data"), σ)
        | _ => (.error .attributeError, σ)
      | _ => (.error .attributeError, σ)

/-- Environment's choice of filesystem failure during `Cache.set`. -/
inductive WriteOutcome where
  | ok : WriteOutcome
  | failWrite : WriteOutcome
  | failReplace : WriteOutcome
  deriving DecidableEq

/-- The JSON document `Cache.set` writes for a payload. -/
def Cache.entryDoc (now : ℤ) (data : Json) (ttl_hours : ℤ)
    (description : String) : Json :=
  .obj [("_cache_meta", .obj
          [("cached_at", .str (isoOfTime now)),
           ("expires_at", .str (isoOfTime (now + 3600 * ttl_hours))),
           ("ttl_hours", .num ttl_hours),
           ("description", .str description)]),
        ("data", data)]

/-- Embedding of `Cache.set`: write the document to the temporary path,
then rename it onto the real path; on an `OSError` remove the temporary
artifact and re-raise. -/
def Cache.set (c : Cache) (σ : FS) (now : ℤ) (ns cat key : String)
    (data : Json) (ttl_hours : ℤ) (description : String)
    (w : WriteOutcome) : Except PyErr Unit × FS :=
  if c.enabled = false then (.ok (), σ)
  else
    let path := c.getPath ns cat key
    let tmp := c.tmpPath ns cat key
    let entry := Cache.entryDoc now data ttl_hours description
    match w with
    | .ok =>
      (.ok (), setF (eraseF (setF σ tmp (.val entry)) tmp) path (.val entry))
    | .failWrite =>
      (.error .osError, eraseF (setF σ tmp .corrupt) tmp)
    | .failReplace =>
      (.error .osError, eraseF (setF σ tmp (.val entry)) tmp)

/-- Embedding of `Cache.delete`.  Note: the Python method does not consult
`self.enabled`. -/
def Cache.delete (c : Cache) (σ : FS) (ns cat key : String) : Bool × FS :=
  let path := c.getPath ns cat key
  match σ path with
  | some _ => (true, eraseF σ path)
  | none => (false, σ)

/-! Gap-report data model (`src/complexionist/gaps/models.py`). -/

/-- A movie missing from the user's library (`MissingMovie`).  A release
date is a day number; `none` models a missing date. -/
structure MissingMovie where
  tmdb_id : ℤ
  title : String
  release_date : Option ℤ := none
  year : Option ℤ := none
  overview : String := ""
  deriving DecidableEq

/-- A collection with missing movies (`CollectionGap`). -/
structure CollectionGap where
  collection_id : ℤ
  collection_name : String
  total_movies : ℤ
  owned_movies : ℤ
  missing_movies : List MissingMovie := []
  deriving DecidableEq

/-- Number of missing movies (`CollectionGap.missing_count`). -/
def CollectionGap.missing_count (g : CollectionGap) : ℕ :=
  g.missing_movies.length

/-- Percentage of the collection owned (`CollectionGap.completion_percent`). -/
def CollectionGap.completion_percent (g : CollectionGap) : ℚ :=
  if g.total_movies = 0 then 100
  else ((g.owned_movies : ℚ) / (g.total_movies : ℚ)) * 100

/-- Full report of movie collection gaps (`MovieGapReport`).  All counter
fields, `unique_collections` included, are plain stored fields of the
model. -/
structure MovieGapReport where
  library_name : String
  total_movies_scanned : ℤ
  movies_with_tmdb_id : ℤ
  movies_in_collections : ℤ
  unique_collections : ℤ
  collections_with_gaps : List CollectionGap := []
  deriving DecidableEq

/-- Total missing movies across collections (`MovieGapReport.total_missing`,
a derived property). -/
def MovieGapReport.total_missing (r : MovieGapReport) : ℕ :=
  (r.collections_with_gaps.map CollectionGap.missing_count).sum

/-- Number of complete collections (`MovieGapReport.complete_collections`,
a derived property). -/
def MovieGapReport.complete_collections (r : MovieGapReport) : ℤ :=
  r.unique_collections - r.collections_with_gaps.length

/-! ETA estimator (`src/complexionist/eta.py`). -/

/-- Python's built-in `round`: round half to even. -/
def pyround (q : ℚ) : ℤ :=
  if q - ⌊q⌋ < 1/2 then ⌊q⌋
  else if 1/2 < q - ⌊q⌋ then ⌊q⌋ + 1
  else if ⌊q⌋ % 2 = 0 then ⌊q⌋ else ⌊q⌋ + 1

/-- Characters of a progress string up to (excluding) the first `": "`
separator; the whole string when there is none. -/
def phaseKeyChars : List Char → List Char
  | [] => []
  | ':' :: ' ' :: _ => []
  | c :: rest => c :: phaseKeyChars rest

/-- Embedding of `_extract_phase_key`: the part of a progress string
before the first `": "` separator, or the whole string when there is
none (Python's `phase.split(": ", 1)[0]`). -/
def extractPhaseKey (phase : String) : String :=
  String.mk (phaseKeyChars phase.data)

/-- Embedding of `_format_seconds`: human-readable ETA string with
graduated rounding. -/
def formatSeconds (seconds0 : ℚ) : String :=
  let seconds := max 0 seconds0
  if seconds < 10 then
    "~" ++ toString (max 1 (pyround seconds)) ++ "s remaining"
  else if seconds < 60 then
    "~" ++ toString (max 5 (pyround (seconds / 5) * 5)) ++ "s remaining"
  else if seconds < 3600 then
    let mins := ⌊seconds / 60⌋
    let secs := ⌊seconds - 60 * ⌊seconds / 60⌋⌋
    let secs10 := pyround ((secs : ℚ) / 10) * 10
    let mins' := if secs10 = 60 then mins + 1 else mins
    let secs' := if secs10 = 60 then 0 else secs10
    if secs' > 0 then
      "~" ++ toString mins' ++ "m " ++ toString secs' ++ "s remaining"
    else
      "~" ++ toString mins' ++ "m remaining"
  else
    let hours := ⌊seconds / 3600⌋
    let mins := ⌊(seconds - 3600 * ⌊seconds / 3600⌋) / 60⌋
    if mins > 0 then
      "~" ++ toString hours ++ "h " ++ toString mins ++ "m remaining"
    else
      "~" ++ toString hours ++ "h remaining"

/-- State of the ETA estimator (`ETACalculator` dataclass).  Current
wall-clock time (`time.monotonic()`) is passed explicitly to the
operations. -/
structure ETACalculator where
  alpha : ℚ := 0.15
  min_samples : ℕ := 5
  min_update_interval : ℚ := 2.0
  ema_duration : ℚ := 0.0
  samples : ℕ := 0
  last_time : Option ℚ := none
  last_phase_key : String := ""
  last_total : ℤ := 0
  remaining : Option ℚ := none
  last_display_time : ℚ := 0.0
  last_display_text : String := ""
  deriving DecidableEq

/-- A freshly constructed `ETACalculator()`. -/
def ETACalculator.mk0 : ETACalculator := {}

/-- Embedding of `ETACalculator._reset_phase`. -/
def ETACalculator.reset_phase (s : ETACalculator) : ETACalculator :=
  { s with ema_duration := 0, samples := 0, last_time := none,
           remaining := none }

/-- First block of `ETACalculator.update`: detect a phase change or a
total change and reset the EMA state. -/
def ETACalculator.updateReset (s : ETACalculator) (phase_key : String)
    (total : ℤ) : ETACalculator :=
  if phase_key ≠ s.last_phase_key ∨ total ≠ s.last_total then
    { s.reset_phase with last_phase_key := phase_key, last_total := total }
  else s

/-- Second block of `ETACalculator.update`: fold the per-item duration
from successive ticks into the EMA, ignoring gaps of 30 seconds or
more. -/
def ETACalculator.updateSample (s : ETACalculator) (now : ℚ) : ETACalculator :=
  match s.last_time with
  | some lt =>
    let dt := now - lt
    if dt < 30 then
      if s.samples = 0 then
        { s with ema_duration := dt, samples := s.samples + 1 }
      else
        { s with
            ema_duration := s.alpha * dt + (1 - s.alpha) * s.ema_duration,
            samples := s.samples + 1 }
    else s
  | none => s

/-- Final block of `ETACalculator.update`: compute the remaining time. -/
def ETACalculator.updateRemaining (s : ETACalculator) (current total : ℤ) :
    ETACalculator :=
  if s.min_samples ≤ s.samples ∧ 0 < total then
    { s with remaining := some (s.ema_duration * ((total : ℚ) - (current : ℚ))) }
  else
    { s with remaining := none }

/-- Embedding of `ETACalculator.update`, as the composition of its three
statement blocks followed by the `last_time` assignment between the
second and third. -/
def ETACalculator.update (s : ETACalculator) (phase : String)
    (current total : ℤ) (now : ℚ) : ETACalculator :=
  let s1 := s.updateReset (extractPhaseKey phase) total
  let s2 := s1.updateSample now
  let s3 := { s2 with last_time := some now }
  s3.updateRemaining current total

/-- The display text `format_remaining` computes from the current
estimator state, before flicker protection; `none` is the early
`return ""` for indeterminate progress. -/
def ETACalculator.displayText (s : ETACalculator) : Option String :=
  match s.remaining with
  | none => if 0 < s.samples then some "Calculating..." else none
  | some r => some (if r < 1 then "Almost done..." else formatSeconds r)

/-- Embedding of `ETACalculator.format_remaining`: returns the rendered
string and the updated state. -/
def ETACalculator.format_remaining (s : ETACalculator) (now : ℚ) :
    String × ETACalculator :=
  match s.displayText with
  | none => ("", s)
  | some text =>
    if s.last_display_text ≠ "" ∧ now - s.last_display_time < s.min_update_interval
    then (s.last_display_text, s)
    else (text, { s with last_display_time := now, last_display_text := text })

/-- Fold a list of `(phase, current, total, now)` ticks through `update`. -/
def ETACalculator.applyUpdates (s : ETACalculator)
    (ticks : List (String × ℤ × ℤ × ℚ)) : ETACalculator :=
  ticks.foldl (fun st tk => st.update tk.1 tk.2.1 tk.2.2.1 tk.2.2.2) s

/-! Helper lemmas about `Cache.get`. -/

theorem cache_get_of_entryDoc (c : Cache) (σ : FS) (now t0 ttl : ℤ)
    (ns cat key : String) (data : Json) (desc : String)
    (hen : c.enabled = true)
    (hpath : σ (c.getPath ns cat key)
      = some (.val (Cache.entryDoc t0 data ttl desc))) :
    Cache.get c σ now ns cat key =
      if t0 + 3600 * ttl < now then (.ok none, eraseF σ (c.getPath ns cat key))
      else (.ok (some data), σ) := by
  simp [Cache.get, hen, hpath, Cache.entryDoc, Json.lookup, lookupField,
    isoOfTime_truthy, timeOfIso_isoOfTime]

theorem cache_get_fst_congr (c : Cache) (σ σ' : FS) (now : ℤ)
    (ns cat key : String)
    (h : σ' (c.getPath ns cat key) = σ (c.getPath ns cat key)) :
    (Cache.get c σ' now ns cat key).1 = (Cache.get c σ now ns cat key).1 := by
  unfold Cache.get
  cases hce : c.enabled
  · rfl
  · simp only [Bool.true_eq_false, if_false]
    rw [h]
    repeat' split
    all_goals rfl

/-- C1 — Cache round-trip: for every namespace, category, key and
JSON-structured payload, `Cache.set` with `ttl_hours = h` followed by
`Cache.get` on the same triple at any time not past `cached_at + h` hours
returns the same payload; a `get` after the clock has passed
`cached_at + h` hours returns absent and removes the entry from the
store. -/
theorem C1_cache_roundtrip (c : Cache) (σ : FS) (t0 : ℤ)
    (ns cat key : String) (data : Json) (h : ℤ) (desc : String)
    (hen : c.enabled = true) :
    (Cache.set c σ t0 ns cat key data h desc .ok).1 = .ok () ∧
    (∀ t : ℤ, t ≤ t0 + 3600 * h →
      Cache.get c (Cache.set c σ t0 ns cat key data h desc .ok).2 t ns cat key
        = (.ok (some data), (Cache.set c σ t0 ns cat key data h desc .ok).2)) ∧
    (∀ t : ℤ, t0 + 3600 * h < t →
      (Cache.get c (Cache.set c σ t0 ns cat key data h desc .ok).2
          t ns cat key).1 = .ok none ∧
      (Cache.get c (Cache.set c σ t0 ns cat key data h desc .ok).2
          t ns cat key).2 (c.getPath ns cat key) = none) := by
  have hset : (Cache.set c σ t0 ns cat key data h desc .ok).1 = .ok () ∧
      (Cache.set c σ t0 ns cat key data h desc .ok).2 (c.getPath ns cat key)
        = some (.val (Cache.entryDoc t0 data h desc)) := by
    constructor
    · simp [Cache.set, hen]
    · simp [Cache.set, hen, setF]
  refine ⟨hset.1, ?_, ?_⟩
  · intro t ht
    rw [cache_get_of_entryDoc c _ t t0 h ns cat key data desc hen hset.2,
      if_neg (not_lt.mpr ht)]
  · intro t ht
    rw [cache_get_of_entryDoc c _ t t0 h ns cat key data desc hen hset.2,
      if_pos ht]
    exact ⟨rfl, by simp [eraseF]⟩

/-- Witness for C1 at a concrete instance: an enabled cache over the empty
store, payload written at time 0 with `ttl_hours = 0`; a `get` at time 0
returns the payload, a `get` at time 1 reports absent and deletes the
file. -/
theorem C1_cache_roundtrip_witness :
    (Cache.set ⟨true, "c"⟩ emptyFS 0 "tmdb" "movies" "1" (Json.str "x") 0 "d"
        .ok).1 = .ok () ∧
    Cache.get ⟨true, "c"⟩
        (Cache.set ⟨true, "c"⟩ emptyFS 0 "tmdb" "movies" "1" (Json.str "x") 0
          "d" .ok).2 0 "tmdb" "movies" "1"
      = (.ok (some (Json.str "x")),
         (Cache.set ⟨true, "c"⟩ emptyFS 0 "tmdb" "movies" "1" (Json.str "x") 0
           "d" .ok).2) ∧
    (Cache.get ⟨true, "c"⟩
        (Cache.set ⟨true, "c"⟩ emptyFS 0 "tmdb" "movies" "1" (Json.str "x") 0
          "d" .ok).2 1 "tmdb" "movies" "1").1 = .ok none ∧
    (Cache.get ⟨true, "c"⟩
        (Cache.set ⟨true, "c"⟩ emptyFS 0 "tmdb" "movies" "1" (Json.str "x") 0
          "d" .ok).2 1 "tmdb" "movies" "1").2
      ((⟨true, "c"⟩ : Cache).getPath "tmdb" "movies" "1") = none := by
  have h := C1_cache_roundtrip ⟨true, "c"⟩ emptyFS 0 "tmdb" "movies" "1"
    (Json.str "x") 0 "d" rfl
  exact ⟨h.1, h.2.1 0 (by decide), (h.2.2 1 (by decide)).1,
    (h.2.2 1 (by decide)).2⟩

/-- C2 — Disabled-mode invariance fails for `delete`: evaluating the code
at the failing input shows that on a `Cache` constructed with
`enabled = False`, `delete` of an existing entry removes the file from the
on-disk store and returns `True`, contradicting the claim (and the
method's own docstring) that all operations are no-ops when caching is
disabled.  For contrast, the same conjunction records that `get` does
report absent and `set` does leave the store untouched in disabled
mode. -/
theorem C2_disabled_delete_bug :
    (setF emptyFS ((⟨false, "c"⟩ : Cache).getPath "tmdb" "movies" "1")
        (.val (Json.obj [("data", Json.null)])))
        ((⟨false, "c"⟩ : Cache).getPath "tmdb" "movies" "1")
      = some (.val (Json.obj [("data", Json.null)])) ∧
    (Cache.delete ⟨false, "c"⟩
        (setF emptyFS ((⟨false, "c"⟩ : Cache).getPath "tmdb" "movies" "1")
          (.val (Json.obj [("data", Json.null)])))
        "tmdb" "movies" "1").1 = true ∧
    (Cache.delete ⟨false, "c"⟩
        (setF emptyFS ((⟨false, "c"⟩ : Cache).getPath "tmdb" "movies" "1")
          (.val (Json.obj [("data", Json.null)])))
        "tmdb" "movies" "1").2
        ((⟨false, "c"⟩ : Cache).getPath "tmdb" "movies" "1") = none ∧
    (Cache.get ⟨false, "c"⟩
        (setF emptyFS ((⟨false, "c"⟩ : Cache).getPath "tmdb" "movies" "1")
          (.val (Json.obj [("data", Json.null)])))
        0 "tmdb" "movies" "1").1 = .ok none ∧
    (∀ σ : FS, ∀ w : WriteOutcome,
      Cache.set ⟨false, "c"⟩ σ 0 "tmdb" "movies" "1" Json.null 1 "" w
        = (.ok (), σ)) := by
  refine ⟨rfl, rfl, rfl, rfl, fun σ w => rfl⟩

/-- C3 — Write atomicity: when a filesystem error strikes `Cache.set`
(either while writing the temporary file or during the final rename), the
error propagates to the caller, the temporary artifact is removed, every
other path of the store is untouched, and the result observable through
`Cache.get` for that `(namespace, category, key)` is exactly what it was
before the failed write. -/
theorem C3_write_atomicity (c : Cache) (σ : FS) (t0 : ℤ)
    (ns cat key : String) (data : Json) (h : ℤ) (desc : String)
    (w : WriteOutcome) (hen : c.enabled = true) (hw : w ≠ .ok) :
    (Cache.set c σ t0 ns cat key data h desc w).1 = .error .osError ∧
    (Cache.set c σ t0 ns cat key data h desc w).2 (c.tmpPath ns cat key)
      = none ∧
    (∀ p, p ≠ c.tmpPath ns cat key →
      (Cache.set c σ t0 ns cat key data h desc w).2 p = σ p) ∧
    (∀ t : ℤ,
      (Cache.get c (Cache.set c σ t0 ns cat key data h desc w).2
        t ns cat key).1 = (Cache.get c σ t ns cat key).1) := by
  have hfs : ∀ p, p ≠ c.tmpPath ns cat key →
      (Cache.set c σ t0 ns cat key data h desc w).2 p = σ p := by
    intro p hp
    cases w with
    | ok => exact absurd rfl hw
    | failWrite => simp [Cache.set, hen, eraseF, setF, hp]
    | failReplace => simp [Cache.set, hen, eraseF, setF, hp]
  refine ⟨?_, ?_, hfs, ?_⟩
  · cases w with
    | ok => exact absurd rfl hw
    | failWrite => simp [Cache.set, hen]
    | failReplace => simp [Cache.set, hen]
  · cases w with
    | ok => exact absurd rfl hw
    | failWrite => simp [Cache.set, hen, eraseF]
    | failReplace => simp [Cache.set, hen, eraseF]
  · intro t
    exact cache_get_fst_congr c σ _ t ns cat key
      (hfs _ (getPath_ne_tmpPath c ns cat key))

/-- Witness for C3 at a concrete instance: an enabled cache whose store
already holds an entry for the key; a write that fails during the rename
propagates the error, leaves no temporary file, and a subsequent `get`
still observes the old payload. -/
theorem C3_write_atomicity_witness :
    ((0 : ℤ) ≤ 0) ∧
    ((Cache.set ⟨true, "c"⟩
        (setF emptyFS ((⟨true, "c"⟩ : Cache).getPath "tmdb" "movies" "1")
          (.val (Json.obj [("data", Json.bool true)])))
        5 "tmdb" "movies" "1" (Json.str "new") 1 "d" .failReplace).1
      = .error .osError ∧
    (Cache.set ⟨true, "c"⟩
        (setF emptyFS ((⟨true, "c"⟩ : Cache).getPath "tmdb" "movies" "1")
          (.val (Json.obj [("data", Json.bool true)])))
        5 "tmdb" "movies" "1" (Json.str "new") 1 "d" .failReplace).2
        ((⟨true, "c"⟩ : Cache).tmpPath "tmdb" "movies" "1") = none ∧
    (∀ p, p ≠ (⟨true, "c"⟩ : Cache).tmpPath "tmdb" "movies" "1" →
      (Cache.set ⟨true, "c"⟩
        (setF emptyFS ((⟨true, "c"⟩ : Cache).getPath "tmdb" "movies" "1")
          (.val (Json.obj [("data", Json.bool true)])))
        5 "tmdb" "movies" "1" (Json.str "new") 1 "d" .failReplace).2 p
        = (setF emptyFS ((⟨true, "c"⟩ : Cache).getPath "tmdb" "movies" "1")
            (.val (Json.obj [("data", Json.bool true)]))) p) ∧
    (∀ t : ℤ,
      (Cache.get ⟨true, "c"⟩
        (Cache.set ⟨true, "c"⟩
          (setF emptyFS ((⟨true, "c"⟩ : Cache).getPath "tmdb" "movies" "1")
            (.val (Json.obj [("data", Json.bool true)])))
          5 "tmdb" "movies" "1" (Json.str "new") 1 "d" .failReplace).2
        t "tmdb" "movies" "1").1
      = (Cache.get ⟨true, "c"⟩
          (setF emptyFS ((⟨true, "c"⟩ : Cache).getPath "tmdb" "movies" "1")
            (.val (Json.obj [("data", Json.bool true)])))
          t "tmdb" "movies" "1").1)) := by
  exact ⟨le_refl 0,
    C3_write_atomicity ⟨true, "c"⟩
      (setF emptyFS ((⟨true, "c"⟩ : Cache).getPath "tmdb" "movies" "1")
        (.val (Json.obj [("data", Json.bool true)])))
      5 "tmdb" "movies" "1" (Json.str "new") 1 "d" .failReplace rfl
      (by decide)⟩

/-- C10 — Entries without expiry metadata never expire: for every on-disk
entry that parses as a JSON object whose `_cache_meta` object lacks an
`expires_at` field (or whose `_cache_meta` is absent altogether),
`Cache.get` skips the expiration check and returns the entry's `data`
payload at every time, leaving the file in place. -/
theorem C10_no_expiry_metadata_never_expires (c : Cache) (σ : FS)
    (ns cat key : String) (fields : List (String × Json))
    (hen : c.enabled = true)
    (hpath : σ (c.getPath ns cat key) = some (.val (Json.obj fields)))
    (hmeta : lookupField fields "_cache_meta" = none ∨
      ∃ mf : List (String × Json),
        lookupField fields "_cache_meta" = some (Json.obj mf) ∧
        lookupField mf "expires_at" = none) :
    ∀ now : ℤ, Cache.get c σ now ns cat key
      = (.ok (lookupField fields "data"), σ) := by
  intro now
  rcases hmeta with hnone | ⟨mf, hsome, hexp⟩
  · simp [Cache.get, hen, hpath, Json.lookup, hnone, lookupField]
  · simp [Cache.get, hen, hpath, Json.lookup, hsome, hexp]

/-- Witness for C10 at a concrete instance: an entry whose `_cache_meta`
holds only `cached_at`, read at the late time 999999; the payload is
returned and the store is unchanged. -/
theorem C10_no_expiry_metadata_never_expires_witness :
    Cache.get ⟨true, "c"⟩
        (setF emptyFS ((⟨true, "c"⟩ : Cache).getPath "tmdb" "movies" "7")
          (.val (Json.obj
            [("_cache_meta", Json.obj [("cached_at", Json.str "t")]),
             ("data", Json.num 42)])))
        999999 "tmdb" "movies" "7"
      = (.ok (some (Json.num 42)),
         setF emptyFS ((⟨true, "c"⟩ : Cache).getPath "tmdb" "movies" "7")
           (.val (Json.obj
             [("_cache_meta", Json.obj [("cached_at", Json.str "t")]),
              ("data", Json.num 42)]))) := by
  have h := C10_no_expiry_metadata_never_expires ⟨true, "c"⟩
    (setF emptyFS ((⟨true, "c"⟩ : Cache).getPath "tmdb" "movies" "7")
      (.val (Json.obj
        [("_cache_meta", Json.obj [("cached_at", Json.str "t")]),
         ("data", Json.num 42)])))
    "tmdb" "movies" "7"
    [("_cache_meta", Json.obj [("cached_at", Json.str "t")]),
     ("data", Json.num 42)]
    rfl (by simp [setF])
    (Or.inr ⟨[("cached_at", Json.str "t")], rfl, rfl⟩)
  simpa using h 999999

/-- C4 — Completion-percent edge case: for every `CollectionGap`,
`completion_percent` equals `owned_movies / total_movies * 100` when
`total_movies > 0`, and equals exactly `100.0` when `total_movies = 0`. -/
theorem C4_completion_percent (g : CollectionGap) :
    (g.total_movies = 0 → g.completion_percent = 100) ∧
    (0 < g.total_movies →
      g.completion_percent
        = (g.owned_movies : ℚ) / (g.total_movies : ℚ) * 100) := by
  constructor
  · intro h0
    simp [CollectionGap.completion_percent, h0]
  · intro hpos
    rw [CollectionGap.completion_percent, if_neg (by omega)]

/-- Witness for C4 at concrete instances: an empty collection reports
100.0, a collection of 4 movies with 3 owned reports 75.0. -/
theorem C4_completion_percent_witness :
    (⟨1, "Alien", 0, 0, []⟩ : CollectionGap).completion_percent = 100 ∧
    (⟨2, "Dollars", 4, 3, []⟩ : CollectionGap).completion_percent = 75 := by
  constructor
  · exact (C4_completion_percent ⟨1, "Alien", 0, 0, []⟩).1 rfl
  · rw [(C4_completion_percent ⟨2, "Dollars", 4, 3, []⟩).2 (by norm_num)]
    norm_num

/-- C9 counterexample — the unique-collection count of `MovieGapReport` is
a stored field, not a function of the per-group records: two reports with
equal `collections_with_gaps` lists but `unique_collections` 3 and 7
disagree on the unique-collection count, refuting the claim that both
aggregates are derived from the list. -/
theorem C9_counterexample :
    (⟨"lib", 10, 10, 5, 3, []⟩ : MovieGapReport).collections_with_gaps
      = (⟨"lib", 10, 10, 5, 7, []⟩ : MovieGapReport).collections_with_gaps ∧
    (⟨"lib", 10, 10, 5, 3, []⟩ : MovieGapReport).unique_collections
      ≠ (⟨"lib", 10, 10, 5, 7, []⟩ : MovieGapReport).unique_collections := by
  exact ⟨rfl, by decide⟩

/-- C9 amended — only the total-missing count is derived from the
report's per-group records: it equals the sum of the per-group missing
counts, so any two reports with equal `collections_with_gaps` lists agree
on `total_missing`; the unique-collection count is an independently
stored field. -/
theorem C9_total_missing_derived (r1 r2 : MovieGapReport)
    (h : r1.collections_with_gaps = r2.collections_with_gaps) :
    r1.total_missing = r2.total_missing ∧
    r1.total_missing
      = (r1.collections_with_gaps.map
          (fun g => g.missing_movies.length)).sum := by
  constructor
  · simp [MovieGapReport.total_missing, h]
  · rfl

/-- Witness for the amended C9 at a concrete instance: two reports sharing
one gap record with two missing movies agree on `total_missing = 2`. -/
theorem C9_total_missing_derived_witness :
    (⟨"a", 10, 10, 5, 3,
        [⟨1, "c", 3, 1, [⟨11, "m1", none, none, ""⟩,
                         ⟨12, "m2", none, none, ""⟩]⟩]⟩
      : MovieGapReport).total_missing
      = (⟨"b", 20, 9, 4, 7,
          [⟨1, "c", 3, 1, [⟨11, "m1", none, none, ""⟩,
                           ⟨12, "m2", none, none, ""⟩]⟩]⟩
        : MovieGapReport).total_missing ∧
    (⟨"a", 10, 10, 5, 3,
        [⟨1, "c", 3, 1, [⟨11, "m1", none, none, ""⟩,
                         ⟨12, "m2", none, none, ""⟩]⟩]⟩
      : MovieGapReport).total_missing = 2 := by
  have h := C9_total_missing_derived
    ⟨"a", 10, 10, 5, 3,
      [⟨1, "c", 3, 1, [⟨11, "m1", none, none, ""⟩,
                       ⟨12, "m2", none, none, ""⟩]⟩]⟩
    ⟨"b", 20, 9, 4, 7,
      [⟨1, "c", 3, 1, [⟨11, "m1", none, none, ""⟩,
                       ⟨12, "m2", none, none, ""⟩]⟩]⟩
    rfl
  exact ⟨h.1, by simpa using h.2⟩

/-! Facts about `pyround`. -/

theorem pyround_ge (q : ℚ) : q - 1/2 ≤ (pyround q : ℚ) := by
  unfold pyround
  have h0 : (⌊q⌋ : ℚ) ≤ q := Int.floor_le q
  have h1 : q < ⌊q⌋ + 1 := Int.lt_floor_add_one q
  split_ifs <;> push_cast <;> linarith

theorem pyround_le (q : ℚ) : (pyround q : ℚ) ≤ q + 1/2 := by
  unfold pyround
  have h0 : (⌊q⌋ : ℚ) ≤ q := Int.floor_le q
  have h1 : q < ⌊q⌋ + 1 := Int.lt_floor_add_one q
  split_ifs with hlt hgt <;> push_cast <;> linarith

theorem formatSeconds_under10 (s : ℚ) (h0 : 0 ≤ s) (h10 : s < 10) :
    ∃ n : ℤ, 1 ≤ n ∧ |(n : ℚ) - s| ≤ 1 ∧
      formatSeconds s = "~" ++ toString n ++ "s remaining" := by
  have hmax : max 0 s = s := max_eq_right h0
  refine ⟨max 1 (pyround s), le_max_left _ _, ?_, ?_⟩
  · rcases le_or_lt 1 (pyround s) with hp | hp
    · rw [max_eq_right hp]
      have hg := pyround_ge s
      have hl := pyround_le s
      rw [abs_le]
      constructor <;> linarith
    · have hp0 : (pyround s : ℚ) ≤ 1 := by exact_mod_cast hp.le
      rw [max_eq_left (by omega : pyround s ≤ 1)]
      have hg := pyround_ge s
      rw [abs_le]
      constructor <;> push_cast <;> linarith
  · simp only [formatSeconds, hmax, if_pos h10]

theorem formatSeconds_under60 (s : ℚ) (h10 : 10 ≤ s) (h60 : s < 60) :
    ∃ n : ℤ, n % 5 = 0 ∧ |(n : ℚ) - s| ≤ 5/2 ∧
      formatSeconds s = "~" ++ toString n ++ "s remaining" := by
  have h0 : (0:ℚ) ≤ s := by linarith
  have hmax : max 0 s = s := max_eq_right h0
  have hg := pyround_ge (s/5)
  have hl := pyround_le (s/5)
  have hp2 : 2 ≤ pyround (s/5) := by
    have : (1 : ℚ) < (pyround (s/5) : ℚ) := by linarith
    have : (1 : ℤ) < pyround (s/5) := by exact_mod_cast this
    omega
  have hmax5 : max 5 (pyround (s/5) * 5) = pyround (s/5) * 5 :=
    max_eq_right (by omega)
  refine ⟨pyround (s/5) * 5, Int.mul_emod_left _ _, ?_, ?_⟩
  · rw [abs_le]
    constructor <;> push_cast <;> linarith
  · simp only [formatSeconds, hmax, if_neg (not_lt.mpr h10), if_pos h60, hmax5]

theorem formatSeconds_underHour (s : ℚ) (h60 : 60 ≤ s) (h3600 : s < 3600) :
    ∃ m k : ℤ, k % 10 = 0 ∧ 0 ≤ k ∧ |(60 * m + k : ℚ) - s| < 6 ∧
      formatSeconds s = (if k = 0 then "~" ++ toString m ++ "m remaining"
        else "~" ++ toString m ++ "m " ++ toString k ++ "s remaining") := by
  have h0 : (0:ℚ) ≤ s := by linarith
  have hmax : max 0 s = s := max_eq_right h0
  simp only [formatSeconds, hmax, if_neg (not_lt.mpr (by linarith : (10:ℚ) ≤ s)),
    if_neg (not_lt.mpr h60), if_pos h3600]
  set M : ℤ := ⌊s / 60⌋ with hM
  set SI : ℤ := ⌊s - 60 * (M:ℚ)⌋ with hSIdef
  set p : ℤ := pyround ((SI:ℚ) / 10) with hpdef
  have hMl : (M:ℚ) ≤ s / 60 := Int.floor_le _
  have hMu : s / 60 < M + 1 := Int.lt_floor_add_one _
  have hR0 : (0:ℚ) ≤ s - 60 * M := by
    have : 60 * (M:ℚ) ≤ s := by linarith
    linarith
  have hR60 : s - 60 * (M:ℚ) < 60 := by linarith
  have hSIl : (SI:ℚ) ≤ s - 60 * M := Int.floor_le _
  have hSIu : s - 60 * (M:ℚ) < SI + 1 := Int.lt_floor_add_one _
  have hSI0 : 0 ≤ SI := Int.floor_nonneg.mpr hR0
  have hSI59 : SI ≤ 59 := by
    have h1 : (SI:ℚ) < 60 := lt_of_le_of_lt hSIl hR60
    have h2 : SI < 60 := by exact_mod_cast h1
    omega
  have hpg := pyround_ge ((SI:ℚ) / 10)
  have hpl := pyround_le ((SI:ℚ) / 10)
  rw [← hpdef] at hpg hpl
  have hp0 : 0 ≤ p := by
    have hSI0' : (0:ℚ) ≤ (SI:ℚ) := by exact_mod_cast hSI0
    have : (-1 : ℚ) < (p:ℚ) := by linarith
    have : (-1 : ℤ) < p := by exact_mod_cast this
    omega
  have hp6 : p ≤ 6 := by
    have hSI59' : (SI:ℚ) ≤ 59 := by exact_mod_cast hSI59
    have : (p:ℚ) < 7 := by linarith
    have : p < 7 := by exact_mod_cast this
    omega
  by_cases h6 : p * 10 = 60
  · refine ⟨M + 1, 0, by norm_num, le_refl 0, ?_, ?_⟩
    · have hp6' : p = 6 := by omega
      have h55 : (55:ℚ) ≤ (SI:ℚ) := by
        rw [hp6'] at hpl
        push_cast at hpl
        linarith
      rw [abs_lt]
      constructor <;> push_cast <;> linarith
    · simp only [if_pos h6]
      norm_num
  · have hk0 : 0 ≤ p * 10 := by omega
    refine ⟨M, p * 10, Int.mul_emod_left _ _, hk0, ?_, ?_⟩
    · rw [abs_lt]
      constructor <;> push_cast <;> linarith
    · simp only [if_neg h6]
      by_cases hppos : p * 10 > 0
      · rw [if_pos hppos, if_neg (by omega : ¬ p * 10 = 0)]
      · rw [if_neg hppos, if_pos (by omega : p * 10 = 0)]

theorem formatSeconds_hourPlus (s : ℚ) (h3600 : 3600 ≤ s) :
    ∃ hr m : ℤ, 0 ≤ m ∧ |(3600 * hr + 60 * m : ℚ) - s| < 60 ∧
      formatSeconds s = (if m = 0 then "~" ++ toString hr ++ "h remaining"
        else "~" ++ toString hr ++ "h " ++ toString m ++ "m remaining") := by
  have h0 : (0:ℚ) ≤ s := by linarith
  have hmax : max 0 s = s := max_eq_right h0
  simp only [formatSeconds, hmax, if_neg (not_lt.mpr (by linarith : (10:ℚ) ≤ s)),
    if_neg (not_lt.mpr (by linarith : (60:ℚ) ≤ s)),
    if_neg (not_lt.mpr h3600)]
  set H : ℤ := ⌊s / 3600⌋ with hHdef
  set m : ℤ := ⌊(s - 3600 * (H:ℚ)) / 60⌋ with hmdef
  have hHl : (H:ℚ) ≤ s / 3600 := Int.floor_le _
  have hHu : s / 3600 < H + 1 := Int.lt_floor_add_one _
  have hR0 : (0:ℚ) ≤ s - 3600 * H := by linarith
  have hR : s - 3600 * (H:ℚ) < 3600 := by linarith
  have hml : (m:ℚ) ≤ (s - 3600 * H) / 60 := Int.floor_le _
  have hmu : (s - 3600 * (H:ℚ)) / 60 < m + 1 := Int.lt_floor_add_one _
  have hm0 : 0 ≤ m := Int.floor_nonneg.mpr (by positivity)
  refine ⟨H, m, hm0, ?_, ?_⟩
  · rw [abs_lt]
    constructor <;> linarith
  · by_cases hmz : m > 0
    · rw [if_pos hmz, if_neg (by omega : ¬ m = 0)]
    · rw [if_neg hmz, if_pos (by omega : m = 0)]

/-- C7 — ETA formatting boundaries: the seconds formatter satisfies each
of the spec's examples (`7.3 ↦ "~7s remaining"`, `23 ↦ "~25s remaining"`,
`60 ↦ "~1m remaining"`, `150 ↦ "~2m 30s remaining"`,
`3600 ↦ "~1h remaining"`); every negative input produces the same output
as input `0`; and rounding is graduated — under 10 s the shown value is a
whole second within 1 s of the input (the distance-½ nearest-second rule
relaxed only by the clamp to a minimum of 1 s), under 60 s a multiple of
5 s within 2.5 s, under one hour minutes plus a multiple of 10 s within
6 s (the 60 s rollover is carried into the minutes), and at or above one
hour hours plus minutes within 60 s, with a zero minutes term omitted. -/
theorem C7_format_seconds_boundaries :
    formatSeconds 7.3 = "~7s remaining" ∧
    formatSeconds 23 = "~25s remaining" ∧
    formatSeconds 60 = "~1m remaining" ∧
    formatSeconds 150 = "~2m 30s remaining" ∧
    formatSeconds 3600 = "~1h remaining" ∧
    (∀ s : ℚ, s < 0 → formatSeconds s = formatSeconds 0) ∧
    (∀ s : ℚ, 0 ≤ s → s < 10 → ∃ n : ℤ, 1 ≤ n ∧ |(n : ℚ) - s| ≤ 1 ∧
      formatSeconds s = "~" ++ toString n ++ "s remaining") ∧
    (∀ s : ℚ, 10 ≤ s → s < 60 → ∃ n : ℤ, n % 5 = 0 ∧ |(n : ℚ) - s| ≤ 5/2 ∧
      formatSeconds s = "~" ++ toString n ++ "s remaining") ∧
    (∀ s : ℚ, 60 ≤ s → s < 3600 → ∃ m k : ℤ, k % 10 = 0 ∧ 0 ≤ k ∧
      |(60 * m + k : ℚ) - s| < 6 ∧
      formatSeconds s = (if k = 0 then "~" ++ toString m ++ "m remaining"
        else "~" ++ toString m ++ "m " ++ toString k ++ "s remaining")) ∧
    (∀ s : ℚ, 3600 ≤ s → ∃ hr m : ℤ, 0 ≤ m ∧
      |(3600 * hr + 60 * m : ℚ) - s| < 60 ∧
      formatSeconds s = (if m = 0 then "~" ++ toString hr ++ "h remaining"
        else "~" ++ toString hr ++ "h " ++ toString m ++ "m remaining")) := by
  refine ⟨?_, ?_, ?_, ?_, ?_, ?_, formatSeconds_under10, formatSeconds_under60,
    formatSeconds_underHour, formatSeconds_hourPlus⟩
  · norm_num [formatSeconds, pyround]
    decide
  · norm_num [formatSeconds, pyround]
    decide
  · norm_num [formatSeconds, pyround]
    decide
  · norm_num [formatSeconds, pyround]
    decide
  · norm_num [formatSeconds, pyround]
    decide
  · intro s hs
    have h1 : max 0 s = 0 := max_eq_left hs.le
    have h2 : max 0 (0:ℚ) = 0 := max_self 0
    simp only [formatSeconds, h1, h2]

/-- Witness for C7 at a concrete instance: a negative input renders the
same text as zero. -/
theorem C7_format_seconds_boundaries_witness :
    formatSeconds (-5) = formatSeconds 0 :=
  C7_format_seconds_boundaries.2.2.2.2.2.1 (-5) (by norm_num)


/-! Facts about `ETACalculator.update`. -/

theorem update_eq (s : ETACalculator) (phase : String) (current total : ℤ)
    (now : ℚ) :
    s.update phase current total now =
      ETACalculator.updateRemaining
        { (s.updateReset (extractPhaseKey phase) total).updateSample now with
            last_time := some now }
        current total := rfl

theorem updateReset_min (s : ETACalculator) (pk : String) (total : ℤ) :
    (s.updateReset pk total).min_samples = s.min_samples := by
  unfold ETACalculator.updateReset ETACalculator.reset_phase
  split <;> rfl

theorem updateReset_samples_le (s : ETACalculator) (pk : String) (total : ℤ) :
    (s.updateReset pk total).samples ≤ s.samples := by
  unfold ETACalculator.updateReset ETACalculator.reset_phase
  split <;> simp

theorem updateSample_min (s : ETACalculator) (now : ℚ) :
    (s.updateSample now).min_samples = s.min_samples := by
  unfold ETACalculator.updateSample
  cases hl : s.last_time
  · rfl
  · dsimp only
    split_ifs <;> rfl

theorem updateSample_samples_le (s : ETACalculator) (now : ℚ) :
    (s.updateSample now).samples ≤ s.samples + 1 := by
  unfold ETACalculator.updateSample
  cases hl : s.last_time
  · simp
  · dsimp only
    split
    · split <;> simp
    · simp

theorem updateSample_of_none (s : ETACalculator) (now : ℚ)
    (h : s.last_time = none) : s.updateSample now = s := by
  unfold ETACalculator.updateSample
  rw [h]

theorem updateReset_of_change (s : ETACalculator) (pk : String) (total : ℤ)
    (h : pk ≠ s.last_phase_key ∨ total ≠ s.last_total) :
    s.updateReset pk total =
      { s with ema_duration := 0, samples := 0, last_time := none,
               remaining := none, last_phase_key := pk,
               last_total := total } := by
  unfold ETACalculator.updateReset ETACalculator.reset_phase
  rw [if_pos h]

theorem updateRemaining_min (s : ETACalculator) (current total : ℤ) :
    (s.updateRemaining current total).min_samples = s.min_samples := by
  unfold ETACalculator.updateRemaining
  split <;> rfl

theorem updateRemaining_samples (s : ETACalculator) (current total : ℤ) :
    (s.updateRemaining current total).samples = s.samples := by
  unfold ETACalculator.updateRemaining
  split <;> rfl

theorem updateRemaining_ema (s : ETACalculator) (current total : ℤ) :
    (s.updateRemaining current total).ema_duration = s.ema_duration := by
  unfold ETACalculator.updateRemaining
  split <;> rfl

theorem updateRemaining_remaining (s : ETACalculator) (current total : ℤ) :
    (s.updateRemaining current total).remaining =
      if s.min_samples ≤ s.samples ∧ 0 < total
      then some (s.ema_duration * ((total : ℚ) - (current : ℚ)))
      else none := by
  unfold ETACalculator.updateRemaining
  split <;> rfl

theorem update_min_samples (s : ETACalculator) (phase : String)
    (current total : ℤ) (now : ℚ) :
    (s.update phase current total now).min_samples = s.min_samples := by
  rw [update_eq, updateRemaining_min]
  show ((s.updateReset (extractPhaseKey phase) total).updateSample
    now).min_samples = s.min_samples
  rw [updateSample_min, updateReset_min]

theorem update_samples_eq (s : ETACalculator) (phase : String)
    (current total : ℤ) (now : ℚ) :
    (s.update phase current total now).samples
      = ((s.updateReset (extractPhaseKey phase) total).updateSample
          now).samples := by
  rw [update_eq, updateRemaining_samples]

theorem update_ema_eq (s : ETACalculator) (phase : String)
    (current total : ℤ) (now : ℚ) :
    (s.update phase current total now).ema_duration
      = ((s.updateReset (extractPhaseKey phase) total).updateSample
          now).ema_duration := by
  rw [update_eq, updateRemaining_ema]

theorem update_samples_le (s : ETACalculator) (phase : String)
    (current total : ℤ) (now : ℚ) :
    (s.update phase current total now).samples ≤ s.samples + 1 := by
  rw [update_samples_eq]
  calc ((s.updateReset (extractPhaseKey phase) total).updateSample
          now).samples
      ≤ (s.updateReset (extractPhaseKey phase) total).samples + 1 :=
        updateSample_samples_le _ _
    _ ≤ s.samples + 1 := by
        have := updateReset_samples_le s (extractPhaseKey phase) total
        omega

theorem update_remaining_eq (s : ETACalculator) (phase : String)
    (current total : ℤ) (now : ℚ) :
    (s.update phase current total now).remaining =
      if s.min_samples ≤ (s.update phase current total now).samples ∧ 0 < total
      then some ((s.update phase current total now).ema_duration
        * ((total : ℚ) - (current : ℚ)))
      else none := by
  rw [update_samples_eq, update_ema_eq, update_eq, updateRemaining_remaining]
  show (if ((s.updateReset (extractPhaseKey phase) total).updateSample
      now).min_samples ≤ ((s.updateReset (extractPhaseKey phase)
      total).updateSample now).samples ∧ 0 < total then _ else none) = _
  rw [updateSample_min, updateReset_min]

theorem update_of_change (s : ETACalculator) (phase : String)
    (current total : ℤ) (now : ℚ)
    (hch : extractPhaseKey phase ≠ s.last_phase_key ∨ total ≠ s.last_total)
    (hN : 0 < s.min_samples) :
    s.update phase current total now =
      { s with ema_duration := 0, samples := 0, last_time := some now,
               remaining := none, last_phase_key := extractPhaseKey phase,
               last_total := total } := by
  rw [update_eq, updateReset_of_change _ _ _ hch, updateSample_of_none _ _ rfl]
  unfold ETACalculator.updateRemaining
  rw [if_neg (by dsimp only; rintro ⟨h1, -⟩; omega)]

theorem applyUpdates_cons (s : ETACalculator) (a : String × ℤ × ℤ × ℚ)
    (l : List (String × ℤ × ℤ × ℚ)) :
    s.applyUpdates (a :: l)
      = (s.update a.1 a.2.1 a.2.2.1 a.2.2.2).applyUpdates l := rfl

theorem applyUpdates_concat (s : ETACalculator) (a : String × ℤ × ℤ × ℚ)
    (l : List (String × ℤ × ℤ × ℚ)) :
    s.applyUpdates (l ++ [a])
      = (s.applyUpdates l).update a.1 a.2.1 a.2.2.1 a.2.2.2 := by
  simp [ETACalculator.applyUpdates, List.foldl_append]

theorem applyUpdates_min (s : ETACalculator)
    (ticks : List (String × ℤ × ℤ × ℚ)) :
    (s.applyUpdates ticks).min_samples = s.min_samples := by
  induction ticks generalizing s with
  | nil => rfl
  | cons a l ih => rw [applyUpdates_cons, ih, update_min_samples]

theorem applyUpdates_samples_le (s : ETACalculator)
    (ticks : List (String × ℤ × ℤ × ℚ)) :
    (s.applyUpdates ticks).samples ≤ s.samples + ticks.length := by
  induction ticks generalizing s with
  | nil => simp [ETACalculator.applyUpdates]
  | cons a l ih =>
    rw [applyUpdates_cons]
    have h1 := update_samples_le s a.1 a.2.1 a.2.2.1 a.2.2.2
    have h2 := ih (s.update a.1 a.2.1 a.2.2.1 a.2.2.2)
    simp only [List.length_cons]
    omega

/-- C6 — ETA phase reset: an update whose phase key differs from the
previous tick's phase key, or whose total differs from the previous
tick's total, clears the accumulated smoothing state (the EMA, the sample
count, and the previous tick time, so no inter-tick sample bridges the
phase change), leaves `remaining_seconds` absent, and keeps it absent
through any further sequence of fewer than `min_samples` ticks. -/
theorem C6_eta_phase_reset (s : ETACalculator) (phase : String)
    (current total : ℤ) (now : ℚ)
    (hch : extractPhaseKey phase ≠ s.last_phase_key ∨ total ≠ s.last_total)
    (hN : 0 < s.min_samples) :
    (s.update phase current total now).ema_duration = 0 ∧
    (s.update phase current total now).samples = 0 ∧
    (s.update phase current total now).remaining = none ∧
    (∀ ticks : List (String × ℤ × ℤ × ℚ), ticks.length < s.min_samples →
      ((s.update phase current total now).applyUpdates ticks).remaining
        = none) := by
  have hu := update_of_change s phase current total now hch hN
  refine ⟨by rw [hu], by rw [hu], by rw [hu], ?_⟩
  intro ticks hlen
  induction ticks using List.reverseRecOn with
  | nil => rw [ETACalculator.applyUpdates, List.foldl_nil, hu]
  | append_singleton l a ih =>
    clear ih
    rw [applyUpdates_concat, update_remaining_eq, if_neg]
    rintro ⟨h1, -⟩
    have hXs : ((s.update phase current total now).applyUpdates l).samples
        ≤ l.length := by
      have hb := applyUpdates_samples_le (s.update phase current total now) l
      have hs0 : (s.update phase current total now).samples = 0 := by rw [hu]
      omega
    have hXm : ((s.update phase current total now).applyUpdates
        l).min_samples = s.min_samples := by
      rw [applyUpdates_min, update_min_samples]
    have hus := update_samples_le
      ((s.update phase current total now).applyUpdates l) a.1 a.2.1 a.2.2.1
      a.2.2.2
    rw [hXm] at h1
    simp only [List.length_append, List.length_singleton] at hlen
    omega

/-- Witness for C6 at a concrete instance: a fresh calculator receives a
tick of phase "Analyzing" (its stored phase key is empty, so the phase
key changes); the smoothing state is clear afterwards and one further
tick (fewer than `min_samples = 5`) still yields no estimate. -/
theorem C6_eta_phase_reset_witness :
    (ETACalculator.mk0.update "Analyzing: x" 1 10 0).ema_duration = 0 ∧
    (ETACalculator.mk0.update "Analyzing: x" 1 10 0).samples = 0 ∧
    (ETACalculator.mk0.update "Analyzing: x" 1 10 0).remaining = none ∧
    ((ETACalculator.mk0.update "Analyzing: x" 1 10 0).applyUpdates
      [("Analyzing: y", 2, 10, 1)]).remaining = none := by
  have h := C6_eta_phase_reset ETACalculator.mk0 "Analyzing: x" 1 10 0
    (Or.inl (by decide)) (by decide)
  exact ⟨h.1, h.2.1, h.2.2.1, h.2.2.2 [("Analyzing: y", 2, 10, 1)]
    (by decide)⟩

/-- C5 amended — ETA warm-up: after an update, while the accumulated count
of valid inter-tick samples (deltas under 30 seconds within one phase) is
below `min_samples`, or the total is not positive, `remaining_seconds` is
absent; once at least `min_samples` samples have accumulated and
`total > 0`, it is present and equals the EMA of per-item duration times
`(total - current)` — a quantity that is positive whenever the EMA is
positive and `current < total`, but not in general (it is zero when
`current = total`). -/
theorem C5_eta_warmup (s : ETACalculator) (phase : String)
    (current total : ℤ) (now : ℚ) :
    ((s.update phase current total now).samples < s.min_samples ∨ total ≤ 0 →
      (s.update phase current total now).remaining = none) ∧
    (s.min_samples ≤ (s.update phase current total now).samples →
      0 < total →
      (s.update phase current total now).remaining
        = some ((s.update phase current total now).ema_duration
            * ((total : ℚ) - (current : ℚ))) ∧
      (0 < (s.update phase current total now).ema_duration →
        current < total →
        0 < (s.update phase current total now).ema_duration
            * ((total : ℚ) - (current : ℚ)))) := by
  constructor
  · intro hcase
    rw [update_remaining_eq, if_neg]
    rintro ⟨h1, h2⟩
    rcases hcase with hlt | hle <;> omega
  · intro h1 h2
    refine ⟨by rw [update_remaining_eq, if_pos ⟨h1, h2⟩], ?_⟩
    intro hema hct
    have hq : (0:ℚ) < (total : ℚ) - (current : ℚ) := by
      have : (current : ℚ) < (total : ℚ) := by exact_mod_cast hct
      linarith
    exact mul_pos hema hq

/-- Witness for the amended C5 at a concrete instance: a calculator that
has already collected 4 samples with EMA 1 receives a fifth valid tick;
`remaining_seconds` becomes present, equals the EMA times
`(total - current) = 4`, and is positive. -/
theorem C5_eta_warmup_witness :
    ETACalculator.mk0.min_samples
      ≤ ((⟨0.15, 5, 2, 1, 4, some 4, "Checking", 10, none, 0, ""⟩ :
          ETACalculator).update "Checking: a" 6 10 5).samples ∧
    ((⟨0.15, 5, 2, 1, 4, some 4, "Checking", 10, none, 0, ""⟩ :
        ETACalculator).update "Checking: a" 6 10 5).remaining
      = some (((⟨0.15, 5, 2, 1, 4, some 4, "Checking", 10, none, 0, ""⟩ :
          ETACalculator).update "Checking: a" 6 10 5).ema_duration
            * ((10 : ℚ) - (6 : ℚ))) ∧
    0 < ((⟨0.15, 5, 2, 1, 4, some 4, "Checking", 10, none, 0, ""⟩ :
        ETACalculator).update "Checking: a" 6 10 5).ema_duration
          * ((10 : ℚ) - (6 : ℚ)) := by
  have hpk : extractPhaseKey "Checking: a" = "Checking" := by decide
  have hst : (⟨0.15, 5, 2, 1, 4, some 4, "Checking", 10, none, 0, ""⟩ :
      ETACalculator).update "Checking: a" 6 10 5
      = ⟨0.15, 5, 2, 1, 5, some 5, "Checking", 10, some 4, 0, ""⟩ := by
    norm_num [ETACalculator.update, ETACalculator.updateReset,
      ETACalculator.updateSample, ETACalculator.updateRemaining,
      ETACalculator.reset_phase, hpk]
  have h := C5_eta_warmup
    (⟨0.15, 5, 2, 1, 4, some 4, "Checking", 10, none, 0, ""⟩ : ETACalculator)
    "Checking: a" 6 10 5
  have hsam : ETACalculator.mk0.min_samples
      ≤ ((⟨0.15, 5, 2, 1, 4, some 4, "Checking", 10, none, 0, ""⟩ :
          ETACalculator).update "Checking: a" 6 10 5).samples := by
    rw [hst]
    decide
  refine ⟨hsam, (h.2 (by rw [hst]) (by decide)).1,
    (h.2 (by rw [hst]) (by decide)).2 (by rw [hst]; norm_num) (by decide)⟩

/-- The tick sequence refuting the positivity part of the warm-up claim:
one phase, total 10, one-second ticks, the last tick reporting
`current = total`. -/
def c5ticks : List (String × ℤ × ℤ × ℚ) :=
  [("Checking: a", 1, 10, 0), ("Checking: a", 2, 10, 1),
   ("Checking: a", 3, 10, 2), ("Checking: a", 4, 10, 3),
   ("Checking: a", 5, 10, 4), ("Checking: a", 10, 10, 5)]

/-- C5 counterexample — after this sequence of updates from a fresh
calculator, 5 valid samples (`min_samples` of them) have accumulated and
the total is positive, yet `remaining_seconds` is `some 0`, not a
positive number: the final tick has `current = total`, so
`ema * (total - current) = 0`.  This refutes the claim that at or after
`min_samples` valid samples with `total > 0` the estimate is positive. -/
theorem C5_counterexample :
    ETACalculator.mk0.min_samples
      ≤ (ETACalculator.mk0.applyUpdates c5ticks).samples ∧
    (0 : ℤ) < 10 ∧
    (ETACalculator.mk0.applyUpdates c5ticks).remaining = some 0 := by
  have hpk : extractPhaseKey "Checking: a" = "Checking" := by decide
  have e1 : ETACalculator.mk0.update "Checking: a" 1 10 0
      = ⟨0.15, 5, 2, 0, 0, some 0, "Checking", 10, none, 0, ""⟩ := by
    norm_num [ETACalculator.update, ETACalculator.updateReset,
      ETACalculator.updateSample, ETACalculator.updateRemaining,
      ETACalculator.reset_phase, ETACalculator.mk0, hpk]
  have e2 : (⟨0.15, 5, 2, 0, 0, some 0, "Checking", 10, none, 0, ""⟩ :
      ETACalculator).update "Checking: a" 2 10 1
      = ⟨0.15, 5, 2, 1, 1, some 1, "Checking", 10, none, 0, ""⟩ := by
    norm_num [ETACalculator.update, ETACalculator.updateReset,
      ETACalculator.updateSample, ETACalculator.updateRemaining,
      ETACalculator.reset_phase, hpk]
  have e3 : (⟨0.15, 5, 2, 1, 1, some 1, "Checking", 10, none, 0, ""⟩ :
      ETACalculator).update "Checking: a" 3 10 2
      = ⟨0.15, 5, 2, 1, 2, some 2, "Checking", 10, none, 0, ""⟩ := by
    norm_num [ETACalculator.update, ETACalculator.updateReset,
      ETACalculator.updateSample, ETACalculator.updateRemaining,
      ETACalculator.reset_phase, hpk]
  have e4 : (⟨0.15, 5, 2, 1, 2, some 2, "Checking", 10, none, 0, ""⟩ :
      ETACalculator).update "Checking: a" 4 10 3
      = ⟨0.15, 5, 2, 1, 3, some 3, "Checking", 10, none, 0, ""⟩ := by
    norm_num [ETACalculator.update, ETACalculator.updateReset,
      ETACalculator.updateSample, ETACalculator.updateRemaining,
      ETACalculator.reset_phase, hpk]
  have e5 : (⟨0.15, 5, 2, 1, 3, some 3, "Checking", 10, none, 0, ""⟩ :
      ETACalculator).update "Checking: a" 5 10 4
      = ⟨0.15, 5, 2, 1, 4, some 4, "Checking", 10, none, 0, ""⟩ := by
    norm_num [ETACalculator.update, ETACalculator.updateReset,
      ETACalculator.updateSample, ETACalculator.updateRemaining,
      ETACalculator.reset_phase, hpk]
  have e6 : (⟨0.15, 5, 2, 1, 4, some 4, "Checking", 10, none, 0, ""⟩ :
      ETACalculator).update "Checking: a" 10 10 5
      = ⟨0.15, 5, 2, 1, 5, some 5, "Checking", 10, some 0, 0, ""⟩ := by
    norm_num [ETACalculator.update, ETACalculator.updateReset,
      ETACalculator.updateSample, ETACalculator.updateRemaining,
      ETACalculator.reset_phase, hpk]
  have hrun : ETACalculator.mk0.applyUpdates c5ticks
      = ⟨0.15, 5, 2, 1, 5, some 5, "Checking", 10, some 0, 0, ""⟩ := by
    show ETACalculator.mk0.applyUpdates
      (("Checking: a", 1, 10, 0) :: ("Checking: a", 2, 10, 1) ::
       ("Checking: a", 3, 10, 2) :: ("Checking: a", 4, 10, 3) ::
       ("Checking: a", 5, 10, 4) :: ("Checking: a", 10, 10, 5) :: []) = _
    rw [applyUpdates_cons, applyUpdates_cons, applyUpdates_cons,
      applyUpdates_cons, applyUpdates_cons, applyUpdates_cons]
    dsimp only
    rw [e1, e2, e3, e4, e5, e6]
    rfl
  exact ⟨by rw [hrun]; decide, by decide, by rw [hrun]⟩

/-- C8 amended — flicker suppression, as the code implements it: when the
estimator has a determinate display (`displayText` present) and a
non-empty stored display text whose timestamp is within
`min_update_interval` of the render time, `format_remaining` returns the
stored text and leaves the state unchanged — hence any two renders inside
that window return identical strings; when the window has passed or
nothing non-empty is stored, the render reflects the current estimator
state; a render with indeterminate state (no estimate and no samples)
returns the empty string immediately, bypassing and not arming the
throttle. -/
theorem C8_flicker_throttle (s : ETACalculator) (now : ℚ) :
    (∀ text : String, s.displayText = some text →
      s.last_display_text ≠ "" →
      now - s.last_display_time < s.min_update_interval →
      s.format_remaining now = (s.last_display_text, s)) ∧
    (∀ text : String, s.displayText = some text →
      ¬(s.last_display_text ≠ "" ∧
        now - s.last_display_time < s.min_update_interval) →
      s.format_remaining now
        = (text, { s with last_display_time := now,
                          last_display_text := text })) ∧
    (s.displayText = none → s.format_remaining now = ("", s)) := by
  refine ⟨?_, ?_, ?_⟩
  · intro text hdt hne hwin
    unfold ETACalculator.format_remaining
    rw [hdt]
    simp only [if_pos (And.intro hne hwin)]
  · intro text hdt hcond
    unfold ETACalculator.format_remaining
    rw [hdt]
    simp only [if_neg hcond]
  · intro hdt
    unfold ETACalculator.format_remaining
    rw [hdt]

/-- Witness for the amended C8 at a concrete instance: an estimator with
a stored rendering "~2m remaining" done at time 0 and interval 2, when
rendered again at time 1 with a changed underlying estimate (100 s),
returns the stored text unchanged. -/
theorem C8_flicker_throttle_witness :
    (⟨0.15, 5, 2, 1, 6, some 10, "Checking", 10, some 100, 0,
        "~2m remaining"⟩ : ETACalculator).format_remaining 1
      = ("~2m remaining",
         ⟨0.15, 5, 2, 1, 6, some 10, "Checking", 10, some 100, 0,
          "~2m remaining"⟩) := by
  have h := (C8_flicker_throttle
    (⟨0.15, 5, 2, 1, 6, some 10, "Checking", 10, some 100, 0,
      "~2m remaining"⟩ : ETACalculator) 1).1
  exact h (formatSeconds 100)
    (by norm_num [ETACalculator.displayText]) (by decide) (by norm_num)

/-- C8 counterexample — two renders of the same estimator separated by
3/20 s (well inside the default 2 s interval) return different strings:
a render at time 1/20 with no samples returns the empty string and does
not arm the throttle (the state is returned unchanged), two ticks of
phase "Checking" then give one sample, and a render at time 1/5 returns
"Calculating...".  The render at time 0 shows the 1/20 render is not the
very first one, and no display update ever occurred, so the 1/5 render
is not the first after an elapsed interval either.  This refutes the
claim that any two renders within `min_update_interval` of each other
return identical strings. -/
theorem C8_counterexample :
    (ETACalculator.mk0.format_remaining 0).1 = "" ∧
    (ETACalculator.mk0.format_remaining 0).2 = ETACalculator.mk0 ∧
    (ETACalculator.mk0.format_remaining (1/20)).1 = "" ∧
    (ETACalculator.mk0.format_remaining (1/20)).2 = ETACalculator.mk0 ∧
    (((ETACalculator.mk0.update "Checking: a" 1 10 (1/10)).update
        "Checking: a" 2 10 (3/20)).format_remaining (1/5)).1
      = "Calculating..." ∧
    (1/5 : ℚ) - 1/20 < ETACalculator.mk0.min_update_interval ∧
    ("" : String) ≠ "Calculating..." := by
  have hpk : extractPhaseKey "Checking: a" = "Checking" := by decide
  have e1 : ETACalculator.mk0.update "Checking: a" 1 10 (1/10)
      = ⟨0.15, 5, 2, 0, 0, some (1/10), "Checking", 10, none, 0, ""⟩ := by
    norm_num [ETACalculator.update, ETACalculator.updateReset,
      ETACalculator.updateSample, ETACalculator.updateRemaining,
      ETACalculator.reset_phase, ETACalculator.mk0, hpk]
  have e2 : (⟨0.15, 5, 2, 0, 0, some (1/10), "Checking", 10, none, 0, ""⟩ :
      ETACalculator).update "Checking: a" 2 10 (3/20)
      = ⟨0.15, 5, 2, 1/20, 1, some (3/20), "Checking", 10, none, 0, ""⟩ := by
    norm_num [ETACalculator.update, ETACalculator.updateReset,
      ETACalculator.updateSample, ETACalculator.updateRemaining,
      ETACalculator.reset_phase, hpk]
  refine ⟨rfl, rfl, rfl, rfl, ?_, by norm_num [ETACalculator.mk0], by decide⟩
  rw [e1, e2]
  rfl
